import Mathlib

/-!
Verification of the Helm voyage lifecycle engine (storage core).

The definitions below are a shallow embedding of the repository's storage
layer: the content-addressed artifact store, the per-voyage slate, the
logbook with its seal transaction, and the voyage metadata store
(`src/storage/slate.rs`, `src/storage/logbook.rs`, `src/storage/voyage.rs`,
`src/cli/voyage.rs`).  A voyage's SQLite database is modelled as lists of
rows (in rowid order); external library calls (serde_json, zstd, jiff
timestamps, uuid rendering/parsing) are modelled as codec parameters
gathered in a `Libs` structure, with their documented round-trip laws taken
as hypotheses where a theorem needs them.  SHA-256 and lowercase hex
encoding are implemented concretely, since the hash format is itself under
verification.
-/

namespace Helm

/-- Byte strings are lists of naturals; each produced byte is `< 256`. -/
abbrev Bytes := List Nat

namespace Sha256

/-- 2^32, the word modulus. -/
def w32 : Nat := 4294967296

/-- Addition modulo 2^32. -/
def add32 (a b : Nat) : Nat := (a + b) % w32

/-- Right rotation of a 32-bit word. -/
def rotr (k x : Nat) : Nat := ((x >>> k) ||| (x <<< (32 - k))) % w32

/-- The 64 round constants, written in decimal. -/
def K : List Nat :=
  [1116352408, 1899447441, 3049323471, 3921009573, 961987163, 1508970993,
   2453635748, 2870763221, 3624381080, 310598401, 607225278, 1426881987,
   1925078388, 2162078206, 2614888103, 3248222580, 3835390401, 4022224774,
   264347078, 604807628, 770255983, 1249150122, 1555081692, 1996064986,
   2554220882, 2821834349, 2952996808, 3210313671, 3336571891, 3584528711,
   113926993, 338241895, 666307205, 773529912, 1294757372, 1396182291,
   1695183700, 1986661051, 2177026350, 2456956037, 2730485921, 2820302411,
   3259730800, 3345764771, 3516065817, 3600352804, 4094571909, 275423344,
   430227734, 506948616, 659060556, 883997877, 958139571, 1322822218,
   1537002063, 1747873779, 1955562222, 2024104815, 2227730452, 2361852424,
   2428436474, 2756734187, 3204031479, 3329325298]

/-- Zero bytes needed after the `0x80` marker to reach 56 mod 64. -/
def padLen (l : Nat) : Nat := (64 - (l + 9) % 64) % 64

/-- Big-endian 8-byte encoding of a length in bits. -/
def u64be (n : Nat) : Bytes :=
  [n / 72057594037927936 % 256, n / 281474976710656 % 256,
   n / 1099511627776 % 256, n / 4294967296 % 256,
   n / 16777216 % 256, n / 65536 % 256, n / 256 % 256, n % 256]

/-- SHA-256 message padding. -/
def pad (m : Bytes) : Bytes :=
  m ++ [0x80] ++ List.replicate (padLen m.length) 0 ++ u64be (8 * m.length)

/-- Split a byte string into 64-byte blocks. -/
def chunks (l : Bytes) : List Bytes :=
  if h : l = [] then [] else
    have : (l.drop 64).length < l.length := by
      have hl : 0 < l.length := List.length_pos.mpr h
      simp only [List.length_drop]
      omega
    l.take 64 :: chunks (l.drop 64)
termination_by l.length

/-- Big-endian 32-bit word from bytes `4*i .. 4*i+3` of a block. -/
def word (blk : Bytes) (i : Nat) : Nat :=
  256 * (256 * (256 * blk.getD (4 * i) 0 + blk.getD (4 * i + 1) 0)
    + blk.getD (4 * i + 2) 0) + blk.getD (4 * i + 3) 0

def smallSigma0 (x : Nat) : Nat := (rotr 7 x) ^^^ (rotr 18 x) ^^^ (x >>> 3)

def smallSigma1 (x : Nat) : Nat := (rotr 17 x) ^^^ (rotr 19 x) ^^^ (x >>> 10)

def bigSigma0 (x : Nat) : Nat := (rotr 2 x) ^^^ (rotr 13 x) ^^^ (rotr 22 x)

def bigSigma1 (x : Nat) : Nat := (rotr 6 x) ^^^ (rotr 11 x) ^^^ (rotr 25 x)

def chFn (x y z : Nat) : Nat := (x &&& y) ^^^ ((x ^^^ 4294967295) &&& z)

def majFn (x y z : Nat) : Nat := (x &&& y) ^^^ (x &&& z) ^^^ (y &&& z)

/-- The 64-entry message schedule of one block. -/
def schedule (blk : Bytes) : List Nat :=
  (List.range 48).foldl
    (fun ws _ =>
      let n := ws.length
      ws ++ [add32 (add32 (smallSigma1 (ws.getD (n - 2) 0)) (ws.getD (n - 7) 0))
               (add32 (smallSigma0 (ws.getD (n - 15) 0)) (ws.getD (n - 16) 0))])
    ((List.range 16).map (word blk))

/-- The eight 32-bit working registers. -/
structure St where
  a : Nat
  b : Nat
  c : Nat
  d : Nat
  e : Nat
  f : Nat
  g : Nat
  h : Nat

/-- One compression round. -/
def round (st : St) (kw : Nat × Nat) : St :=
  let t1 := add32 st.h (add32 (bigSigma1 st.e)
    (add32 (chFn st.e st.f st.g) (add32 kw.1 kw.2)))
  let t2 := add32 (bigSigma0 st.a) (majFn st.a st.b st.c)
  ⟨add32 t1 t2, st.a, st.b, st.c, add32 st.d t1, st.e, st.f, st.g⟩

/-- Compress one 64-byte block into the running state. -/
def compressBlock (st : St) (blk : Bytes) : St :=
  let fin := (K.zip (schedule blk)).foldl round st
  ⟨add32 st.a fin.a, add32 st.b fin.b, add32 st.c fin.c, add32 st.d fin.d,
   add32 st.e fin.e, add32 st.f fin.f, add32 st.g fin.g, add32 st.h fin.h⟩

/-- The SHA-256 initial state, written in decimal. -/
def initSt : St :=
  ⟨1779033703, 3144134277, 1013904242, 2773480762,
   1359893119, 2600822924, 528734635, 1541459225⟩

/-- Big-endian 4-byte encoding of a 32-bit word. -/
def w32be (x : Nat) : Bytes :=
  [x / 16777216 % 256, x / 65536 % 256, x / 256 % 256, x % 256]

/-- Serialize the final state to the 32-byte digest. -/
def digest (st : St) : Bytes :=
  w32be st.a ++ w32be st.b ++ w32be st.c ++ w32be st.d ++
  w32be st.e ++ w32be st.f ++ w32be st.g ++ w32be st.h

end Sha256

/-- SHA-256 of a byte string, as the 32-byte digest. -/
def sha256 (m : Bytes) : Bytes :=
  Sha256.digest ((Sha256.chunks (Sha256.pad m)).foldl Sha256.compressBlock Sha256.initSt)

theorem sha256_length (m : Bytes) : (sha256 m).length = 32 := by
  simp [sha256, Sha256.digest, Sha256.w32be]

theorem mem_w32be_lt {b x : Nat} (hb : b ∈ Sha256.w32be x) : b < 256 := by
  simp only [Sha256.w32be, List.mem_cons, List.not_mem_nil, or_false] at hb
  rcases hb with rfl | rfl | rfl | rfl <;> exact Nat.mod_lt _ (by norm_num)

theorem sha256_mem_lt {m : Bytes} {b : Nat} (hb : b ∈ sha256 m) : b < 256 := by
  simp only [sha256, Sha256.digest, List.mem_append] at hb
  rcases hb with ((((((h | h) | h) | h) | h) | h) | h) | h <;> exact mem_w32be_lt h

/-- Lowercase hex digit for a value `< 16`: `0-9` then `a-f`. -/
def hexDigitChar (n : Nat) : Char :=
  if n < 10 then Char.ofNat (48 + n) else Char.ofNat (87 + n)

/-- Two lowercase hex digits per byte, most significant first. -/
def hexChars : Bytes → List Char
  | [] => []
  | b :: bs => hexDigitChar (b / 16) :: hexDigitChar (b % 16) :: hexChars bs

/-- Lowercase hex encoding of a byte string (`hex::encode`). -/
def hexEncode (bs : Bytes) : String := ⟨hexChars bs⟩

/-- The sixteen lowercase hex digit characters. -/
def lowerHexDigits : List Char := "0123456789abcdef".data

theorem hexDigitChar_mem {n : Nat} (h : n < 16) : hexDigitChar n ∈ lowerHexDigits := by
  interval_cases n <;> decide

theorem hexChars_length (bs : Bytes) : (hexChars bs).length = 2 * bs.length := by
  induction bs with
  | nil => rfl
  | cons b bs ih => simp [hexChars, ih]; omega

theorem hexEncode_length (bs : Bytes) : (hexEncode bs).length = 2 * bs.length := by
  simpa [hexEncode, String.length] using hexChars_length bs

theorem hexChars_mem {bs : Bytes} (hb : ∀ b ∈ bs, b < 256) :
    ∀ c ∈ hexChars bs, c ∈ lowerHexDigits := by
  induction bs with
  | nil => intro c hc; simp [hexChars] at hc
  | cons b bs ih =>
    intro c hc
    have hblt : b < 256 := hb b (by simp)
    simp only [hexChars, List.mem_cons] at hc
    rcases hc with rfl | rfl | hc
    · exact hexDigitChar_mem (by omega)
    · exact hexDigitChar_mem (Nat.mod_lt _ (by norm_num))
    · exact ih (fun x hx => hb x (by simp [hx])) c hc

theorem hexEncode_sha256_length (m : Bytes) : (hexEncode (sha256 m)).length = 64 := by
  rw [hexEncode_length, sha256_length]

theorem hexEncode_sha256_mem (m : Bytes) :
    ∀ c ∈ (hexEncode (sha256 m)).data, c ∈ lowerHexDigits :=
  hexChars_mem (fun _ hb => sha256_mem_lt hb)

/-! ## Association-list primitives for SQL tables keyed by a primary key -/

/-- First row with the given key in the `artifacts` table (`hash` is the PK). -/
def lookupA : List (String × Bytes) → String → Option Bytes
  | [], _ => none
  | kv :: rest, k => if kv.1 = k then some kv.2 else lookupA rest k

/-- SQL `INSERT OR IGNORE` on a table whose first column is the primary key:
append the row unless the key is already present. -/
def insertOrIgnore (as : List (String × Bytes)) (k : String) (d : Bytes) :
    List (String × Bytes) :=
  if (lookupA as k).isSome then as else as ++ [(k, d)]

/-- Number of rows carrying a given key. -/
def countKey (as : List (String × Bytes)) (k : String) : Nat :=
  (as.filter (fun kv => kv.1 == k)).length

/-- Rust `collect::<Result<Vec<_>>>` over a row iterator: map a fallible decoder,
stopping at the first error. -/
def mapE (f : α → Except ε β) : List α → Except ε (List β)
  | [] => .ok []
  | a :: as =>
    match f a with
    | .error e => .error e
    | .ok b =>
      match mapE f as with
      | .error e => .error e
      | .ok bs => .ok (b :: bs)

/-! ## Data model

Timestamps (`jiff::Timestamp`) are instants, modelled as `Int` (nanoseconds
since the epoch); voyage identifiers (`uuid::Uuid`) are 128-bit values,
modelled as `Nat`.  Both are stored as text and go through the `Libs`
codecs below.  Database rows store exactly the text/blob columns of the
schema, in rowid order.
-/

/-- The `action` column's decoded form: `EntryKind::Steer` or `EntryKind::Log`
(`model`, used by `storage/logbook.rs`). -/
inductive EntryKind (S : Type) where
  | steer (steer : S)
  | log (status : String)
deriving DecidableEq

/-- An in-memory observation: `(target, payload, observed_at)`. -/
structure Observation (P T : Type) where
  target : T
  payload : P
  observedAt : Int
deriving DecidableEq

/-- Voyage status: `Active` or `Ended { ended_at, status }`. -/
inductive VoyageStatus where
  | active
  | ended (endedAt : Int) (status : Option String)
deriving DecidableEq

/-- In-memory voyage metadata. -/
structure Voyage where
  id : Nat
  intent : String
  createdAt : Int
  status : VoyageStatus
deriving DecidableEq

/-- A row of the `slate` table: `(target PK, artifact_hash, observed_at)`. -/
structure SlateRow where
  target : String
  hash : String
  observedAt : String
deriving DecidableEq

/-- A row of the `logbook` table; `role` and `method` columns are nullable. -/
structure LogbookRow where
  id : Nat
  recordedAt : String
  identity : String
  action : String
  summary : String
  role : Option String
  method : Option String
deriving DecidableEq

/-- A row of the `bearing_observations` table. -/
structure BearingRow where
  logbookId : Nat
  target : String
  hash : String
  observedAt : String
deriving DecidableEq

/-- The single row of the `voyage` table:
`(id, intent, created_at, status, ended_at, ended_status)`. -/
structure VoyageRow where
  id : String
  intent : String
  createdAt : String
  status : String
  endedAt : Option String
  endedStatus : Option String
deriving DecidableEq

/-- One voyage's SQLite database: its tables as lists of rows in rowid
order (`artifacts` is keyed by hash; the blob column holds the
zstd-compressed payload JSON). -/
structure Db where
  voyage : List VoyageRow
  artifacts : List (String × Bytes)
  slate : List SlateRow
  logbook : List LogbookRow
  bearingObs : List BearingRow
deriving DecidableEq

/-- Modelled from the spec: the error taxonomy surfaced from the core
(the `StorageError` enum of the storage module root is not under `src/`;
only its variants `VoyageNotFound`, `VoyageAlreadyExists`, `Db`, `Corrupt`,
`TimeParse` appear in the files that are). -/
inductive StorageErr where
  | voyageNotFound (id : Nat)
  | voyageAlreadyExists (id : Nat)
  | artifactNotFound (hash : String)
  | corrupt (msg : String)
  | dbErr (msg : String)
  | json (msg : String)
  | compression (msg : String)
  | timeParse (msg : String)
deriving DecidableEq

/-- The external library functions the storage layer calls, as parameters:
serde_json serialization of payloads, targets and actions, zstd
compression, jiff timestamp rendering/parsing, and uuid
rendering/parsing.  Their round-trip laws are taken as hypotheses by the
theorems that need them. -/
structure Libs (P T S : Type) where
  encP : P → Bytes
  decP : Bytes → Option P
  encT : T → String
  decT : String → Option T
  encA : EntryKind S → String
  decA : String → Option (EntryKind S)
  compress : Bytes → Bytes
  decompress : Bytes → Option Bytes
  printTs : Int → String
  parseTs : String → Option Int
  renderId : Nat → String
  parseId : String → Option Nat

variable {P T S : Type}

/-! ## Artifact store and slate (`src/storage/slate.rs`) -/

/-- The content hash a payload is stored under: 64 lowercase hex characters
of the SHA-256 of the payload's canonical JSON serialization. -/
def artifactHash (L : Libs P T S) (p : P) : String :=
  hexEncode (sha256 (L.encP p))

/-- Embeds `Storage::append_slate` (`slate.rs:19-41`): serialize and compress the
payload, insert the blob if absent (`INSERT OR IGNORE`), then upsert the
slate row keyed by the serialized target (`INSERT OR REPLACE`: the
conflicting row is deleted and the fresh row takes a new, larger rowid). -/
def appendSlate (L : Libs P T S) (db : Db) (obs : Observation P T) : Db :=
  let payloadJson := L.encP obs.payload
  let hash := hexEncode (sha256 payloadJson)
  let compressed := L.compress payloadJson
  let artifacts := insertOrIgnore db.artifacts hash compressed
  let targetJson := L.encT obs.target
  let slate := db.slate.filter (fun r => !(r.target == targetJson)) ++
    [⟨targetJson, hash, L.printTs obs.observedAt⟩]
  { db with artifacts := artifacts, slate := slate }

/-- Modelled from the spec: `load(hash) → payload` of the artifact store
(`load_artifact` lives in the storage module root, which is not under
`src/`): read the blob, decompress, parse; `ArtifactNotFound` when the row
is absent, corrupt when decompression or parsing fails. -/
def loadArtifact (L : Libs P T S) (db : Db) (hash : String) : Except StorageErr P :=
  match lookupA db.artifacts hash with
  | none => .error (.artifactNotFound hash)
  | some data =>
    match L.decompress data with
    | none => .error (.compression "zstd decode")
    | some payloadJson =>
      match L.decP payloadJson with
      | none => .error (.json "payload parse")
      | some p => .ok p

/-- The rows produced by `SELECT s.target, s.observed_at, b.data FROM slate s
JOIN blobs b ON s.blob_hash = b.hash` (`slate.rs:48-52`): the slate is
scanned in rowid order with the blob fetched by its primary key; a slate
row whose blob is absent is dropped by the join. -/
def slateJoin (db : Db) : List (String × String × Bytes) :=
  db.slate.filterMap
    (fun r => (lookupA db.artifacts r.hash).map (fun d => (r.target, r.observedAt, d)))

/-- The row-decoding closure of `load_slate` (`slate.rs:61-74`): parse the
target JSON, zstd-decompress the blob, parse the payload JSON, parse the
`observed_at` timestamp (failure there is `StorageError::Corrupt`). -/
def decodeSlateTriple (L : Libs P T S) (row : String × String × Bytes) :
    Except StorageErr (Observation P T) :=
  match L.decT row.1 with
  | none => .error (.json "target parse")
  | some target =>
    match L.decompress row.2.2 with
    | none => .error (.compression "zstd decode")
    | some payloadJson =>
      match L.decP payloadJson with
      | none => .error (.json "payload parse")
      | some payload =>
        match L.parseTs row.2.1 with
        | none => .error (.corrupt "invalid observed_at")
        | some observedAt => .ok ⟨target, payload, observedAt⟩

/-- Embeds `Storage::load_slate` (`slate.rs:46-77`). -/
def loadSlate (L : Libs P T S) (db : Db) : Except StorageErr (List (Observation P T)) :=
  mapE (decodeSlateTriple L) (slateJoin db)

/-- What one slate row reconstitutes to, when everything decodes: the
composition of the blob join with the row decoder. -/
def decodeSlateRow (L : Libs P T S) (db : Db) (r : SlateRow) : Option (Observation P T) :=
  (lookupA db.artifacts r.hash).bind
    (fun d => (decodeSlateTriple L (r.target, r.observedAt, d)).toOption)

/-- Embeds `Storage::clear_slate` (`slate.rs:82-86`): `DELETE FROM slate`. -/
def clearSlate (db : Db) : Db := { db with slate := [] }

/-- Embeds `Storage::erase_slate` (`slate.rs:92-100`): delete the row whose target
equals the serialized argument; return whether any row was removed. -/
def eraseSlate (L : Libs P T S) (db : Db) (target : T) : Db × Bool :=
  let targetJson := L.encT target
  let remaining := db.slate.filter (fun r => !(r.target == targetJson))
  ({ db with slate := remaining }, decide (remaining.length < db.slate.length))

/-- A slate-only mutation: `clear_slate` or `erase_slate`. -/
inductive SlateOp (T : Type) where
  | clear
  | erase (target : T)

def applySlateOp (L : Libs P T S) (db : Db) : SlateOp T → Db
  | .clear => clearSlate db
  | .erase t => (eraseSlate L db t).1

def applySlateOps (L : Libs P T S) (db : Db) (ops : List (SlateOp T)) : Db :=
  ops.foldl (applySlateOp L) db

/-! ## Seal transaction (`src/storage/logbook.rs`) -/

/-- The steps of the seal transaction that can fail (`record_entry`). -/
inductive SealStep where
  | readSlate
  | insertLogbook
  | insertBearing (i : Nat)
  | deleteSlate
  | commit
deriving DecidableEq

/-- The identifier the autoincrement PK assigns to the next logbook row. -/
def nextLogbookId (db : Db) : Nat :=
  (db.logbook.map (fun r => r.id)).foldl max 0 + 1

/-- The `for` loop of `record_entry` (`logbook.rs:148-155`): copy each slate
row into `bearing_observations`, preserving order; a failure injected at
row `i` aborts the transaction. -/
def insertBearingRows (fail : SealStep → Bool) (logbookId : Nat) :
    Db → Nat → List SlateRow → Except StorageErr Db
  | tx, _, [] => .ok tx
  | tx, i, r :: rest =>
    if fail (.insertBearing i) then .error (.dbErr "insert bearing_observations") else
    insertBearingRows fail logbookId
      { tx with bearingObs := tx.bearingObs ++ [⟨logbookId, r.target, r.hash, r.observedAt⟩] }
      (i + 1) rest

/-- Embeds `Storage::record_entry` (`logbook.rs:114-161`), with failure injection:
inside one transaction, read the slate in rowid order, insert the logbook
row, copy the slate into `bearing_observations`, delete the slate, commit.
`.ok` is the committed database; `.error` means the transaction aborted
before commit. -/
def recordEntryTx (fail : SealStep → Bool) (db : Db)
    (actionJson summary identity role method recordedAt : String) :
    Except StorageErr Db :=
  if fail .readSlate then .error (.dbErr "read slate") else
  if fail .insertLogbook then .error (.dbErr "insert logbook") else
  match insertBearingRows fail (nextLogbookId db)
      { db with
        logbook := db.logbook ++
          [⟨nextLogbookId db, recordedAt, identity, actionJson, summary,
            some role, some method⟩] }
      0 db.slate with
  | .error e => .error e
  | .ok tx2 =>
    if fail .deleteSlate then .error (.dbErr "delete slate") else
    if fail .commit then .error (.dbErr "commit") else
    .ok { tx2 with slate := [] }

/-- The durable database after the transaction: the committed state on
`.ok`, the untouched pre-transaction state on `.error` (SQLite rolls an
uncommitted transaction back when it is dropped). -/
def sealOutcome (res : Except StorageErr Db) (db : Db) : Db :=
  match res with
  | .ok d => d
  | .error _ => db

/-- Embeds `Storage::record_steer` (`logbook.rs:25-36`): encode the action as
`EntryKind::Steer` and run the shared inner transaction. -/
def recordSteer (L : Libs P T S) (fail : SealStep → Bool) (db : Db) (steer : S)
    (summary identity role method recordedAt : String) : Except StorageErr Db :=
  recordEntryTx fail db (L.encA (.steer steer)) summary identity role method recordedAt

/-- Embeds `Storage::record_log` (`logbook.rs:41-52`): encode the action as
`EntryKind::Log` and run the shared inner transaction. -/
def recordLog (L : Libs P T S) (fail : SealStep → Bool) (db : Db) (status : String)
    (summary identity role method recordedAt : String) : Except StorageErr Db :=
  recordEntryTx fail db (L.encA (.log status)) summary identity role method recordedAt

/-! ## Logbook read side (`src/storage/logbook.rs`) -/

/-- A bearing: the observations that informed a logbook entry, plus its
summary. -/
structure Bearing (P T : Type) where
  observations : List (Observation P T)
  summary : String
deriving DecidableEq

/-- A loaded logbook entry; `role` and `method` are always (possibly empty)
strings. -/
structure LogbookEntry (P T S : Type) where
  bearing : Bearing P T
  identity : String
  role : String
  method : String
  recordedAt : Int
  kind : EntryKind S
deriving DecidableEq

/-- The `bearing_observations` rows of one logbook entry, in rowid order
(`logbook.rs:169-184`). -/
def bearingRowsFor (db : Db) (logbookId : Nat) : List BearingRow :=
  db.bearingObs.filter (fun r => r.logbookId == logbookId)

/-- The row decoder of `load_bearing_observations` (`logbook.rs:186-199`):
parse the target JSON, parse `observed_at` (`TimeParse` on failure), load
the artifact. -/
def decodeBearingRow (L : Libs P T S) (db : Db) (r : BearingRow) :
    Except StorageErr (Observation P T) :=
  match L.decT r.target with
  | none => .error (.json "target parse")
  | some target =>
    match L.parseTs r.observedAt with
    | none => .error (.timeParse r.observedAt)
    | some observedAt =>
      match loadArtifact L db r.hash with
      | .error e => .error e
      | .ok payload => .ok ⟨target, payload, observedAt⟩

/-- Embeds `load_bearing_observations` (`logbook.rs:165-200`). -/
def loadBearingObservations (L : Libs P T S) (db : Db) (logbookId : Nat) :
    Except StorageErr (List (Observation P T)) :=
  mapE (decodeBearingRow L db) (bearingRowsFor db logbookId)

/-- The per-row decoder of `load_logbook` (`logbook.rs:84-108`): parse
`recorded_at` (`TimeParse` on failure), decode the action JSON, load the
bearing observations; the SELECT's `COALESCE(role, '')` and
`COALESCE(method, '')` substitute the empty string for NULL columns. -/
def decodeLogbookRow (L : Libs P T S) (db : Db) (row : LogbookRow) :
    Except StorageErr (LogbookEntry P T S) :=
  match L.parseTs row.recordedAt with
  | none => .error (.timeParse row.recordedAt)
  | some recordedAt =>
    match L.decA row.action with
    | none => .error (.json "action parse")
    | some kind =>
      match loadBearingObservations L db row.id with
      | .error e => .error e
      | .ok observations =>
        .ok ⟨⟨observations, row.summary⟩, row.identity,
          row.role.getD "", row.method.getD "", recordedAt, kind⟩

/-- The logbook rows in ascending identifier order (`ORDER BY id`). -/
def sortById (rows : List LogbookRow) : List LogbookRow :=
  List.insertionSort (fun a b => a.id ≤ b.id) rows

/-- Embeds `Storage::load_logbook` (`logbook.rs:60-109`). -/
def loadLogbook (L : Libs P T S) (db : Db) :
    Except StorageErr (List (LogbookEntry P T S)) :=
  mapE (decodeLogbookRow L db) (sortById db.logbook)

/-! ## Voyage store (`src/storage/voyage.rs`) and `voyage end`
(`src/cli/voyage.rs`) -/

/-- Embeds `encode_status` (`voyage.rs:109-116`): `Active` stores
`("active", NULL, NULL)`; `Ended` stores
`("ended", ended_at rendered as text, status or NULL)`. -/
def encodeStatus (L : Libs P T S) : VoyageStatus → String × Option String × Option String
  | .active => ("active", none, none)
  | .ended endedAt status => ("ended", some (L.printTs endedAt), status)

/-- Embeds `decode_voyage` (`voyage.rs:119-169`): conversion failures surface as
engine (`Db`) errors via `rusqlite::Error::FromSqlConversionFailure`. -/
def decodeVoyageRow (L : Libs P T S) (row : VoyageRow) : Except StorageErr Voyage :=
  match L.parseId row.id with
  | none => .error (.dbErr "invalid voyage id")
  | some id =>
    match L.parseTs row.createdAt with
    | none => .error (.dbErr "invalid created_at")
    | some createdAt =>
      if row.status = "active" then .ok ⟨id, row.intent, createdAt, .active⟩
      else if row.status = "ended" then
        match L.parseTs ((row.endedAt).getD "") with
        | none => .error (.dbErr "invalid ended_at")
        | some endedAt => .ok ⟨id, row.intent, createdAt, .ended endedAt row.endedStatus⟩
      else .error (.dbErr "unknown voyage status")

/-- The single-row `SELECT ... FROM voyage LIMIT 1` of `load_voyage`
(`voyage.rs:55-63`): no row yields `QueryReturnedNoRows`, an engine (`Db`)
error. -/
def loadVoyageRow (L : Libs P T S) (db : Db) : Except StorageErr Voyage :=
  match db.voyage with
  | [] => .error (.dbErr "query returned no rows")
  | row :: _ => decodeVoyageRow L row

/-- Embeds `Storage::update_voyage` (`voyage.rs:39-52`): rewrite the status columns
of the row whose id matches; zero affected rows is `VoyageNotFound`. -/
def updateVoyage (L : Libs P T S) (db : Db) (v : Voyage) : Except StorageErr Db :=
  let s := encodeStatus L v.status
  let updated := db.voyage.map (fun row =>
    if row.id == L.renderId v.id then
      { row with status := s.1, endedAt := s.2.1, endedStatus := s.2.2 }
    else row)
  if db.voyage.any (fun row => row.id == L.renderId v.id) then
    .ok { db with voyage := updated }
  else .error (.voyageNotFound v.id)

/-- The storage root: a directory of files, each name mapped to the
database it contains. -/
abbrev Root := List (String × Db)

/-- First file with the given name. -/
def lookupFile : Root → String → Option Db
  | [], _ => none
  | f :: rest, name => if f.1 = name then some f.2 else lookupFile rest name

/-- The file name `<root>/<id>.sqlite`. -/
def voyageFileName (L : Libs P T S) (id : Nat) : String :=
  L.renderId id ++ ".sqlite"

/-- Embeds `Storage::load_voyage` at the root level: `VoyageNotFound` when the
file is absent, otherwise read the voyage row. -/
def loadVoyage (L : Libs P T S) (root : Root) (id : Nat) : Except StorageErr Voyage :=
  match lookupFile root (voyageFileName L id) with
  | none => .error (.voyageNotFound id)
  | some db => loadVoyageRow L db

/-- The seven characters of the `.sqlite` suffix. -/
def sqliteSuffix : List Char := ['.', 's', 'q', 'l', 'i', 't', 'e']

/-- Whether a file name has the `sqlite` extension: its last seven
characters are `.sqlite`. -/
def fileIsSqlite (name : String) : Bool :=
  name.data.reverse.take 7 == sqliteSuffix.reverse

/-- The file stem of a `*.sqlite` file name: the name without its last
seven characters. -/
def fileStem (name : String) : String := ⟨name.data.take (name.data.length - 7)⟩

/-- The directory scan of `list_voyages` (`voyage.rs:76-101`): skip
non-`.sqlite` files, skip stems that do not parse as identifiers, read the
voyage row, skip engine (`Db`) errors silently, propagate other errors. -/
def listVoyagesScan (L : Libs P T S) (root : Root) :
    List (String × Db) → Except StorageErr (List Voyage)
  | [] => .ok []
  | entry :: rest =>
    if fileIsSqlite entry.1 then
      match L.parseId (fileStem entry.1) with
      | none => listVoyagesScan L root rest
      | some id =>
        match loadVoyage L root id with
        | .ok v =>
          match listVoyagesScan L root rest with
          | .error e => .error e
          | .ok vs => .ok (v :: vs)
        | .error (.dbErr _) => listVoyagesScan L root rest
        | .error e => .error e
    else listVoyagesScan L root rest

/-- The `sort_by(created_at)` of `list_voyages` (`voyage.rs:103`): a stable
ascending sort on `created_at`. -/
def sortByCreatedAt (vs : List Voyage) : List Voyage :=
  List.insertionSort (fun a b => a.createdAt ≤ b.createdAt) vs

instance : IsTotal Voyage (fun a b => a.createdAt ≤ b.createdAt) :=
  ⟨fun a b => Int.le_total a.createdAt b.createdAt⟩

instance : IsTrans Voyage (fun a b => a.createdAt ≤ b.createdAt) :=
  ⟨fun _ _ _ hab hbc => le_trans hab hbc⟩

/-- Embeds `Storage::list_voyages` (`voyage.rs:68-105`). -/
def listVoyages (L : Libs P T S) (root : Root) : Except StorageErr (List Voyage) :=
  match listVoyagesScan L root root with
  | .error e => .error e
  | .ok vs => .ok (sortByCreatedAt vs)

/-- What the scan keeps of one directory entry: a voyage when the name is a
`*.sqlite` file, the stem parses, and the voyage row loads. -/
def keptVoyage (L : Libs P T S) (root : Root) (entry : String × Db) : Option Voyage :=
  if fileIsSqlite entry.1 then
    match L.parseId (fileStem entry.1) with
    | none => none
    | some id => (loadVoyage L root id).toOption
  else none

/-- Embeds `cmd_end` (`cli/voyage.rs:73-101`): an already-ended voyage is a
user-facing error before any write; otherwise the status is set to
`Ended { ended_at: now, status }` and the row rewritten.  The first
component is the durable database after the call. -/
def cmdEnd (L : Libs P T S) (db : Db) (v : Voyage) (status : Option String)
    (now : Int) : Db × Except String Unit :=
  match v.status with
  | .ended _ _ =>
    (db, .error ("voyage " ++ (L.renderId v.id).take 8 ++ " is already ended"))
  | .active =>
    match updateVoyage L db { v with status := VoyageStatus.ended now status } with
    | .ok db2 => (db2, .ok ())
    | .error _ => (db, .error "failed to update voyage")

/-! ## Concrete instantiation used to evaluate the development

The theorems below are parametric in the external-library codecs; `LW` is
one concrete instantiation (identity payload and target codecs over byte
lists and strings, a toy action codec, identity compression, finite
timestamp and identifier codecs) on which each hypothesis can be
discharged by computation. -/

def LW : Libs Bytes String Unit where
  encP := fun p => p
  decP := fun b => some b
  encT := fun t => t
  decT := fun s => some s
  encA := fun k =>
    match k with
    | .steer _ => "steer"
    | .log s => "log:" ++ s
  decA := fun s =>
    if s = "steer" then some (.steer ()) else
    if s = "log:ok" then some (.log "ok") else none
  compress := fun b => b
  decompress := fun b => some b
  printTs := fun i => if i = 0 then "ts0" else if i = 1 then "ts1" else "ts2"
  parseTs := fun s => if s = "ts0" then some 0 else if s = "ts1" then some 1 else none
  renderId := fun n => if n = 7 then "id7" else "idx"
  parseId := fun s => if s = "id7" then some 7 else none

/-- A freshly created, empty voyage database. -/
def emptyDb : Db := ⟨[], [], [], [], []⟩

/-- A database with one artifact and one slate row referencing it. -/
def dbOneSlate : Db := ⟨[], [("h1", [1])], [⟨"t1", "h1", "ts0"⟩], [], []⟩

/-- The state of `dbOneSlate` after a successful steer seal. -/
def dbSealed : Db :=
  ⟨[], [("h1", [1])], [],
   [⟨1, "ts0", "alice", "steer", "su", some "coder", some "human"⟩],
   [⟨1, "t1", "h1", "ts0"⟩]⟩

/-- A database with one artifact referenced by a historical bearing row,
and one slate row. -/
def dbHist : Db :=
  ⟨[], [("h1", [1])], [⟨"t2", "h1", "ts0"⟩],
   [⟨1, "ts0", "alice", "steer", "su", some "coder", some "human"⟩],
   [⟨1, "t1", "h1", "ts0"⟩]⟩

/-- A database holding only an active voyage row for identifier 7. -/
def db7 : Db := ⟨[⟨"id7", "fix", "ts0", "active", none, none⟩], [], [], [], []⟩

/-- A database whose voyage table is empty (a partially written file). -/
def dbNoVoyage : Db := ⟨[], [], [], [], []⟩

/-- A storage root with one well-formed voyage file, one partially written
file and one file whose stem is not an identifier. -/
def root7 : Root := [("id7.sqlite", db7), ("idx.sqlite", dbNoVoyage), ("notes.txt", db7)]

/-- An observation for the identity codecs of `LW`. -/
def obsW : Observation Bytes String := ⟨"t1", [1], 0⟩

/-- A logbook row whose `role` and `method` columns are NULL. -/
def rowNull : LogbookRow := ⟨1, "ts0", "alice", "steer", "su", none, none⟩

/-- An already-ended voyage with identifier 7. -/
def voyEnded : Voyage := ⟨7, "fix", 0, .ended 1 none⟩

/-! ## Lemmas about the primary-key association list -/

theorem lookupA_append_single (as : List (String × Bytes)) (k k2 : String) (d : Bytes) :
    lookupA (as ++ [(k, d)]) k2 =
      match lookupA as k2 with
      | some d2 => some d2
      | none => if k = k2 then some d else none := by
  induction as with
  | nil => simp [lookupA]
  | cons kv rest ih =>
    by_cases h : kv.1 = k2 <;> simp [lookupA, h, ih]

theorem lookupA_append_self_of_none {as : List (String × Bytes)} {k : String}
    (h : lookupA as k = none) (d : Bytes) :
    lookupA (as ++ [(k, d)]) k = some d := by
  rw [lookupA_append_single, h]
  simp

theorem insertOrIgnore_of_none {as : List (String × Bytes)} {k : String}
    (h : lookupA as k = none) (d : Bytes) :
    insertOrIgnore as k d = as ++ [(k, d)] := by
  simp [insertOrIgnore, h]

theorem insertOrIgnore_of_some {as : List (String × Bytes)} {k : String} {d0 : Bytes}
    (h : lookupA as k = some d0) (d : Bytes) :
    insertOrIgnore as k d = as := by
  simp [insertOrIgnore, h]

theorem lookupA_insertOrIgnore_isSome (as : List (String × Bytes)) (k : String) (d : Bytes) :
    (lookupA (insertOrIgnore as k d) k).isSome := by
  cases hl : lookupA as k with
  | some d0 => rw [insertOrIgnore_of_some hl, hl]; rfl
  | none => rw [insertOrIgnore_of_none hl, lookupA_append_self_of_none hl]; rfl

theorem insertOrIgnore_insertOrIgnore (as : List (String × Bytes)) (k : String)
    (d1 d2 : Bytes) :
    insertOrIgnore (insertOrIgnore as k d1) k d2 = insertOrIgnore as k d1 := by
  cases hl : lookupA as k with
  | some d0 => rw [insertOrIgnore_of_some hl, insertOrIgnore_of_some hl]
  | none =>
    rw [insertOrIgnore_of_none hl,
      insertOrIgnore_of_some (lookupA_append_self_of_none hl d1)]

theorem countKey_cons (kv : String × Bytes) (rest : List (String × Bytes)) (k : String) :
    countKey (kv :: rest) k = (if kv.1 = k then 1 else 0) + countKey rest k := by
  by_cases h : kv.1 = k
  · simp [countKey, List.filter_cons, h]
    omega
  · simp [countKey, List.filter_cons, h]

theorem countKey_eq_zero {as : List (String × Bytes)} {k : String} :
    countKey as k = 0 ↔ lookupA as k = none := by
  induction as with
  | nil => simp [countKey, lookupA]
  | cons kv rest ih =>
    rw [countKey_cons]
    by_cases h : kv.1 = k <;> simp [lookupA, h, ih]

theorem countKey_append_single (as : List (String × Bytes)) (k k2 : String) (d : Bytes) :
    countKey (as ++ [(k, d)]) k2 = countKey as k2 + (if k = k2 then 1 else 0) := by
  by_cases h : k = k2 <;> simp [countKey, List.filter_append, List.filter_cons, h]

theorem countKey_insertOrIgnore_le_one {as : List (String × Bytes)} {k : String}
    (h : countKey as k ≤ 1) (d : Bytes) :
    countKey (insertOrIgnore as k d) k = 1 := by
  cases hl : lookupA as k with
  | none =>
    have h0 : countKey as k = 0 := countKey_eq_zero.mpr hl
    rw [insertOrIgnore_of_none hl, countKey_append_single, h0, if_pos rfl]
  | some d0 =>
    have h1 : countKey as k ≠ 0 := fun hz => by
      rw [countKey_eq_zero.mp hz] at hl
      exact Option.noConfusion hl
    rw [insertOrIgnore_of_some hl]
    omega

/-! ## Structural lemmas about the seal transaction -/

theorem insertBearingRows_ok {fail : SealStep → Bool} {logbookId : Nat} :
    ∀ (rows : List SlateRow) (tx d : Db) (i : Nat),
      insertBearingRows fail logbookId tx i rows = .ok d →
      d = { tx with
            bearingObs := tx.bearingObs ++
              rows.map (fun r => ⟨logbookId, r.target, r.hash, r.observedAt⟩) } := by
  intro rows
  induction rows with
  | nil =>
    intro tx d i h
    simp only [insertBearingRows] at h
    cases h
    cases tx
    simp
  | cons r rest ih =>
    intro tx d i h
    simp only [insertBearingRows] at h
    by_cases hf : fail (.insertBearing i)
    · rw [if_pos hf] at h; exact absurd h (by simp)
    · rw [if_neg hf] at h
      have := ih _ _ _ h
      simp only [this, List.map_cons, List.append_assoc, List.singleton_append]

theorem recordEntryTx_ok {fail : SealStep → Bool} {db d : Db}
    {actionJson summary identity role method recordedAt : String}
    (h : recordEntryTx fail db actionJson summary identity role method recordedAt = .ok d) :
    d = { db with
      logbook := db.logbook ++
        [⟨nextLogbookId db, recordedAt, identity, actionJson, summary, some role, some method⟩],
      bearingObs := db.bearingObs ++
        db.slate.map (fun r => ⟨nextLogbookId db, r.target, r.hash, r.observedAt⟩),
      slate := [] } := by
  unfold recordEntryTx at h
  split at h
  · exact absurd h (by simp)
  · split at h
    · exact absurd h (by simp)
    · split at h
      · exact absurd h (by simp)
      · rename_i tx2 hins
        split at h
        · exact absurd h (by simp)
        · split at h
          · exact absurd h (by simp)
          · cases h
            rw [insertBearingRows_ok _ _ _ _ hins]

theorem insertBearingRows_noFail (logbookId : Nat) :
    ∀ (rows : List SlateRow) (tx : Db) (i : Nat),
      insertBearingRows (fun _ => false) logbookId tx i rows =
        .ok { tx with
              bearingObs := tx.bearingObs ++
                rows.map (fun r => ⟨logbookId, r.target, r.hash, r.observedAt⟩) } := by
  intro rows
  induction rows with
  | nil =>
    intro tx i
    simp only [insertBearingRows, List.map_nil, List.append_nil]
  | cons r rest ih =>
    intro tx i
    simp only [insertBearingRows, if_neg Bool.false_ne_true, ih, List.map_cons,
      List.append_assoc, List.singleton_append]

theorem recordEntryTx_noFail (db : Db)
    (actionJson summary identity role method recordedAt : String) :
    recordEntryTx (fun _ => false) db actionJson summary identity role method recordedAt =
      .ok { db with
        logbook := db.logbook ++
          [⟨nextLogbookId db, recordedAt, identity, actionJson, summary, some role, some method⟩],
        bearingObs := db.bearingObs ++
          db.slate.map (fun r => ⟨nextLogbookId db, r.target, r.hash, r.observedAt⟩),
        slate := [] } := by
  unfold recordEntryTx
  simp only [if_neg Bool.false_ne_true, insertBearingRows_noFail]

/-! ## The claims -/

/-- C1: for every voyage database and slate state, a successful
`record_steer` or `record_log` appends exactly one logbook entry, inserts
one `bearing_observations` row per prior slate row — with the slate rows'
`(target, artifact_hash, observed_at)` kept, in slate rowid order — and
leaves the slate empty; sealing an empty slate succeeds and attaches zero
bearing-observations (the map over an empty slate is empty). -/
theorem claim1_seal_appends_and_clears (L : Libs P T S) (db : Db) (steer : S)
    (status summary identity role method recordedAt : String) :
    (recordSteer L (fun _ => false) db steer summary identity role method recordedAt =
      .ok { db with
            logbook := db.logbook ++
              [⟨nextLogbookId db, recordedAt, identity, L.encA (.steer steer), summary,
                some role, some method⟩],
            bearingObs := db.bearingObs ++
              db.slate.map (fun r => ⟨nextLogbookId db, r.target, r.hash, r.observedAt⟩),
            slate := [] }) ∧
    (recordLog L (fun _ => false) db status summary identity role method recordedAt =
      .ok { db with
            logbook := db.logbook ++
              [⟨nextLogbookId db, recordedAt, identity, L.encA (.log status), summary,
                some role, some method⟩],
            bearingObs := db.bearingObs ++
              db.slate.map (fun r => ⟨nextLogbookId db, r.target, r.hash, r.observedAt⟩),
            slate := [] }) ∧
    (∀ (fail : SealStep → Bool) (d : Db),
      recordSteer L fail db steer summary identity role method recordedAt = .ok d →
        d.logbook = db.logbook ++
          [⟨nextLogbookId db, recordedAt, identity, L.encA (.steer steer), summary,
            some role, some method⟩] ∧
        d.bearingObs = db.bearingObs ++
          db.slate.map (fun r => ⟨nextLogbookId db, r.target, r.hash, r.observedAt⟩) ∧
        d.bearingObs.length = db.bearingObs.length + db.slate.length ∧
        d.slate = []) ∧
    (∀ (fail : SealStep → Bool) (d : Db),
      recordLog L fail db status summary identity role method recordedAt = .ok d →
        d.logbook = db.logbook ++
          [⟨nextLogbookId db, recordedAt, identity, L.encA (.log status), summary,
            some role, some method⟩] ∧
        d.bearingObs = db.bearingObs ++
          db.slate.map (fun r => ⟨nextLogbookId db, r.target, r.hash, r.observedAt⟩) ∧
        d.slate = []) := by
  refine ⟨recordEntryTx_noFail db _ summary identity role method recordedAt,
    recordEntryTx_noFail db _ summary identity role method recordedAt, ?_, ?_⟩
  · intro fail d h
    have hd := recordEntryTx_ok h
    subst hd
    simp [List.length_append]
  · intro fail d h
    have hd := recordEntryTx_ok h
    subst hd
    simp

/-- Witness for C1: sealing a one-row slate on a concrete database. -/
theorem claim1_witness :
    recordSteer LW (fun _ => false) dbOneSlate () "su" "alice" "coder" "human" "ts0" =
      .ok dbSealed ∧
    dbSealed.logbook = dbOneSlate.logbook ++
      [⟨1, "ts0", "alice", "steer", "su", some "coder", some "human"⟩] ∧
    dbSealed.bearingObs.length = dbOneSlate.bearingObs.length + dbOneSlate.slate.length ∧
    dbSealed.slate = [] := by
  have h := (claim1_seal_appends_and_clears LW dbOneSlate () "st" "su" "alice" "coder"
    "human" "ts0").2.2.1 (fun _ => false) dbSealed rfl
  exact ⟨rfl, h.1, h.2.2.1, h.2.2.2⟩

/-- C2: if any step of the seal transaction inside `record_steer` or
`record_log` fails — reading the slate, inserting the logbook row,
inserting a `bearing_observations` row, deleting the slate, or the commit
itself — the durable database after the call is the pre-call one: the
logbook and the slate (indeed every table) are unchanged. -/
theorem claim2_seal_rollback (L : Libs P T S) (fail : SealStep → Bool) (db : Db)
    (steer : S) (status summary identity role method recordedAt : String) :
    (∀ e : StorageErr,
      recordSteer L fail db steer summary identity role method recordedAt = .error e →
        (sealOutcome
            (recordSteer L fail db steer summary identity role method recordedAt) db).logbook
          = db.logbook ∧
        (sealOutcome
            (recordSteer L fail db steer summary identity role method recordedAt) db).slate
          = db.slate ∧
        sealOutcome
          (recordSteer L fail db steer summary identity role method recordedAt) db = db) ∧
    (∀ e : StorageErr,
      recordLog L fail db status summary identity role method recordedAt = .error e →
        (sealOutcome
            (recordLog L fail db status summary identity role method recordedAt) db).logbook
          = db.logbook ∧
        (sealOutcome
            (recordLog L fail db status summary identity role method recordedAt) db).slate
          = db.slate ∧
        sealOutcome
          (recordLog L fail db status summary identity role method recordedAt) db = db) := by
  constructor
  · intro e h
    rw [h]
    exact ⟨rfl, rfl, rfl⟩
  · intro e h
    rw [h]
    exact ⟨rfl, rfl, rfl⟩

/-- One slate entry per target: re-filtering for the removed target after
an anti-filter finds nothing. -/
theorem filter_target_after_remove (l : List SlateRow) (tj : String) :
    (l.filter (fun r => !(r.target == tj))).filter (fun r => r.target == tj) = [] := by
  induction l with
  | nil => rfl
  | cons r rest ih =>
    by_cases h : r.target = tj <;> simp [List.filter_cons, h, ih]

/-- After storing `o1` then `o2`, the blob stored under `o2`'s hash is
`o2`'s compressed serialization, provided the hash was fresh in the
initial database and hash equality implies serialization equality. -/
theorem lookupA_after_two_appends (L : Libs P T S) (db : Db) (o1 o2 : Observation P T)
    (hfresh : lookupA db.artifacts (artifactHash L o2.payload) = none)
    (hcoll : artifactHash L o1.payload = artifactHash L o2.payload →
      L.encP o1.payload = L.encP o2.payload) :
    lookupA (appendSlate L (appendSlate L db o1) o2).artifacts
        (artifactHash L o2.payload) = some (L.compress (L.encP o2.payload)) := by
  have ha : (appendSlate L (appendSlate L db o1) o2).artifacts =
      insertOrIgnore
        (insertOrIgnore db.artifacts (artifactHash L o1.payload)
          (L.compress (L.encP o1.payload)))
        (artifactHash L o2.payload) (L.compress (L.encP o2.payload)) := rfl
  rw [ha]
  by_cases hk : artifactHash L o1.payload = artifactHash L o2.payload
  · rw [hcoll hk, hk, insertOrIgnore_insertOrIgnore, insertOrIgnore_of_none hfresh,
      lookupA_append_self_of_none hfresh]
  · have hnone : lookupA
        (insertOrIgnore db.artifacts (artifactHash L o1.payload)
          (L.compress (L.encP o1.payload))) (artifactHash L o2.payload) = none := by
      cases hl : lookupA db.artifacts (artifactHash L o1.payload) with
      | some d0 => rw [insertOrIgnore_of_some hl]; exact hfresh
      | none =>
        rw [insertOrIgnore_of_none hl, lookupA_append_single, hfresh]
        simp [hk]
    rw [insertOrIgnore_of_none hnone, lookupA_append_self_of_none hnone]

/-- The blob stored by a single `append_slate` is found under the
payload's hash, provided the hash slot was fresh or already held the same
compressed serialization. -/
theorem lookupA_after_append (L : Libs P T S) (db : Db) (obs : Observation P T)
    (hfresh : lookupA db.artifacts (artifactHash L obs.payload) = none ∨
      lookupA db.artifacts (artifactHash L obs.payload) =
        some (L.compress (L.encP obs.payload))) :
    lookupA (appendSlate L db obs).artifacts (artifactHash L obs.payload) =
      some (L.compress (L.encP obs.payload)) := by
  have ha : (appendSlate L db obs).artifacts =
      insertOrIgnore db.artifacts (artifactHash L obs.payload)
        (L.compress (L.encP obs.payload)) := rfl
  rw [ha]
  rcases hfresh with hf | hf
  · rw [insertOrIgnore_of_none hf, lookupA_append_self_of_none hf]
  · rw [insertOrIgnore_of_some hf]; exact hf

/-- Witness for C2: a failure injected at the first step of the seal on a
concrete database leaves it untouched. -/
theorem claim2_witness :
    recordSteer LW (fun _ => true) dbOneSlate () "su" "alice" "coder" "human" "ts0" =
      .error (.dbErr "read slate") ∧
    sealOutcome
      (recordSteer LW (fun _ => true) dbOneSlate () "su" "alice" "coder" "human" "ts0")
      dbOneSlate = dbOneSlate := by
  refine ⟨rfl, ?_⟩
  exact ((claim2_seal_rollback LW (fun _ => true) dbOneSlate () "st" "su" "alice" "coder"
    "human" "ts0").1 (.dbErr "read slate") rfl).2.2

/-- C3: observing the same target twice (`append_slate` then
`append_slate`) leaves exactly one slate entry for that target — the
second observation's hash and rendered timestamp — and that entry
reconstitutes to the second observation's payload and `observed_at`
(newest wins). -/
theorem claim3_slate_set_semantics (L : Libs P T S) (db : Db)
    (o1 o2 : Observation P T)
    (ht : o1.target = o2.target)
    (hz : L.decompress (L.compress (L.encP o2.payload)) = some (L.encP o2.payload))
    (hp : L.decP (L.encP o2.payload) = some o2.payload)
    (htg : L.decT (L.encT o2.target) = some o2.target)
    (hts : L.parseTs (L.printTs o2.observedAt) = some o2.observedAt)
    (hfresh : lookupA db.artifacts (artifactHash L o2.payload) = none)
    (hcoll : artifactHash L o1.payload = artifactHash L o2.payload →
      L.encP o1.payload = L.encP o2.payload) :
    (appendSlate L (appendSlate L db o1) o2).slate.filter
        (fun r => r.target == L.encT o2.target) =
      [⟨L.encT o2.target, artifactHash L o2.payload, L.printTs o2.observedAt⟩] ∧
    decodeSlateRow L (appendSlate L (appendSlate L db o1) o2)
        ⟨L.encT o2.target, artifactHash L o2.payload, L.printTs o2.observedAt⟩ =
      some ⟨o2.target, o2.payload, o2.observedAt⟩ := by
  constructor
  · have hs1 : (appendSlate L db o1).slate =
        db.slate.filter (fun r => !(r.target == L.encT o1.target)) ++
          [(⟨L.encT o1.target, artifactHash L o1.payload, L.printTs o1.observedAt⟩ :
            SlateRow)] := rfl
    have hs2 : (appendSlate L (appendSlate L db o1) o2).slate =
        (appendSlate L db o1).slate.filter (fun r => !(r.target == L.encT o2.target)) ++
          [(⟨L.encT o2.target, artifactHash L o2.payload, L.printTs o2.observedAt⟩ :
            SlateRow)] := rfl
    rw [hs2, hs1, ht]
    simp [List.filter_append, filter_target_after_remove, List.filter_cons]
  · have hlook := lookupA_after_two_appends L db o1 o2 hfresh hcoll
    simp [decodeSlateRow, hlook, decodeSlateTriple, htg, hz, hp, hts, Except.toOption]

/-- Witness for C3 at concrete identity codecs and an empty database. -/
theorem claim3_witness :
    lookupA emptyDb.artifacts (artifactHash LW obsW.payload) = none ∧
    (appendSlate LW (appendSlate LW emptyDb obsW) obsW).slate.filter
        (fun r => r.target == LW.encT obsW.target) =
      [⟨LW.encT obsW.target, artifactHash LW obsW.payload, LW.printTs obsW.observedAt⟩] := by
  have h := claim3_slate_set_semantics LW emptyDb obsW obsW rfl rfl rfl rfl rfl rfl
    (fun _ => rfl)
  exact ⟨rfl, h.1⟩

/-- C4: storing a payload twice (equal payloads) computes the same hash —
the 64-character lowercase-hex SHA-256 of the payload's canonical JSON
serialization — both times, and after both stores exactly one artifact row
holds that hash: the second insert is a no-op. -/
theorem claim4_artifact_determinism (L : Libs P T S) (db : Db)
    (o1 o2 : Observation P T)
    (hp : o1.payload = o2.payload)
    (hcnt : countKey db.artifacts (artifactHash L o2.payload) ≤ 1) :
    artifactHash L o1.payload = artifactHash L o2.payload ∧
    artifactHash L o2.payload = hexEncode (sha256 (L.encP o2.payload)) ∧
    (artifactHash L o2.payload).length = 64 ∧
    (∀ c ∈ (artifactHash L o2.payload).data, c ∈ lowerHexDigits) ∧
    countKey (appendSlate L (appendSlate L db o1) o2).artifacts
      (artifactHash L o2.payload) = 1 ∧
    (appendSlate L (appendSlate L db o1) o2).artifacts =
      (appendSlate L db o1).artifacts := by
  have ha : (appendSlate L (appendSlate L db o1) o2).artifacts =
      insertOrIgnore
        (insertOrIgnore db.artifacts (artifactHash L o1.payload)
          (L.compress (L.encP o1.payload)))
        (artifactHash L o2.payload) (L.compress (L.encP o2.payload)) := rfl
  have ha1 : (appendSlate L db o1).artifacts =
      insertOrIgnore db.artifacts (artifactHash L o1.payload)
        (L.compress (L.encP o1.payload)) := rfl
  refine ⟨by rw [hp], rfl, hexEncode_sha256_length _, hexEncode_sha256_mem _, ?_, ?_⟩
  · rw [ha, hp]
    have h1 : countKey
        (insertOrIgnore db.artifacts (artifactHash L o2.payload)
          (L.compress (L.encP o2.payload))) (artifactHash L o2.payload) = 1 :=
      countKey_insertOrIgnore_le_one hcnt _
    exact countKey_insertOrIgnore_le_one (le_of_eq h1) _
  · rw [ha, ha1, hp]
    exact insertOrIgnore_insertOrIgnore _ _ _ _

/-- Witness for C4 at concrete identity codecs and an empty database. -/
theorem claim4_witness :
    countKey emptyDb.artifacts (artifactHash LW obsW.payload) ≤ 1 ∧
    countKey (appendSlate LW (appendSlate LW emptyDb obsW) obsW).artifacts
      (artifactHash LW obsW.payload) = 1 ∧
    (artifactHash LW obsW.payload).length = 64 := by
  have h := claim4_artifact_determinism LW emptyDb obsW obsW rfl (Nat.zero_le 1)
  exact ⟨Nat.zero_le 1, h.2.2.2.2.1, h.2.2.1⟩

/-- C5: loading what was stored for a payload returns that payload:
after `append_slate`, the artifact under the payload's hash
decompresses and parses back to the payload, and the appended slate row —
the last row, in rowid order — reconstitutes to the original observation. -/
theorem claim5_load_store_roundtrip (L : Libs P T S) (db : Db) (obs : Observation P T)
    (hz : L.decompress (L.compress (L.encP obs.payload)) = some (L.encP obs.payload))
    (hp : L.decP (L.encP obs.payload) = some obs.payload)
    (htg : L.decT (L.encT obs.target) = some obs.target)
    (hts : L.parseTs (L.printTs obs.observedAt) = some obs.observedAt)
    (hfresh : lookupA db.artifacts (artifactHash L obs.payload) = none ∨
      lookupA db.artifacts (artifactHash L obs.payload) =
        some (L.compress (L.encP obs.payload))) :
    loadArtifact L (appendSlate L db obs) (artifactHash L obs.payload) =
      .ok obs.payload ∧
    decodeSlateRow L (appendSlate L db obs)
        ⟨L.encT obs.target, artifactHash L obs.payload, L.printTs obs.observedAt⟩ =
      some obs ∧
    (appendSlate L db obs).slate.getLast? =
      some ⟨L.encT obs.target, artifactHash L obs.payload, L.printTs obs.observedAt⟩ := by
  have hlook := lookupA_after_append L db obs hfresh
  refine ⟨?_, ?_, ?_⟩
  · simp only [loadArtifact, hlook, hz, hp]
  · simp [decodeSlateRow, hlook, decodeSlateTriple, htg, hz, hp, hts, Except.toOption]
  · have hs : (appendSlate L db obs).slate =
        db.slate.filter (fun r => !(r.target == L.encT obs.target)) ++
          [⟨L.encT obs.target, artifactHash L obs.payload, L.printTs obs.observedAt⟩] := rfl
    rw [hs]
    exact List.getLast?_concat _

/-- Witness for C5 at concrete identity codecs and an empty database. -/
theorem claim5_witness :
    lookupA emptyDb.artifacts (artifactHash LW obsW.payload) = none ∧
    loadArtifact LW (appendSlate LW emptyDb obsW) (artifactHash LW obsW.payload) =
      .ok obsW.payload := by
  have h := claim5_load_store_roundtrip LW emptyDb obsW rfl rfl rfl rfl (Or.inl rfl)
  exact ⟨rfl, h.1⟩

/-- The scan underlying `load_slate`: when every row decodes, the result is
one observation per row, in row order. -/
theorem loadSlate_scan (L : Libs P T S) (db : Db) :
    ∀ rs : List SlateRow, (∀ r ∈ rs, (decodeSlateRow L db r).isSome) →
      ∃ l, mapE (decodeSlateTriple L)
          (rs.filterMap (fun r => (lookupA db.artifacts r.hash).map
            (fun d => (r.target, r.observedAt, d)))) = .ok l ∧
        List.Forall₂ (fun r o => decodeSlateRow L db r = some o) rs l := by
  intro rs
  induction rs with
  | nil => exact fun _ => ⟨[], rfl, .nil⟩
  | cons r rest ih =>
    intro hw
    obtain ⟨l, hl, hf⟩ := ih (fun x hx => hw x (List.mem_cons_of_mem _ hx))
    have hr := hw r (List.mem_cons_self _ _)
    cases hlk : lookupA db.artifacts r.hash with
    | none => rw [decodeSlateRow, hlk] at hr; simp at hr
    | some d =>
      cases htr : decodeSlateTriple L (r.target, r.observedAt, d) with
      | error e =>
        rw [decodeSlateRow, hlk] at hr
        simp [htr, Except.toOption] at hr
      | ok o =>
        refine ⟨o :: l, ?_, .cons ?_ hf⟩
        · simp [List.filterMap_cons, hlk, mapE, htr, hl]
        · rw [decodeSlateRow, hlk]
          simp [htr, Except.toOption]

/-- C6: `load_slate` yields one reconstituted `(target, payload,
observed_at)` per slate row, in insertion (rowid) order — the unordered
`SELECT` is embedded with SQLite's scan order for this query: the slate
table read in rowid order with each blob fetched by primary key — and an
empty slate yields the empty collection.  The hypothesis asks that every
row decode (its blob present and its three fields parseable). -/
theorem claim6_load_slate_order (L : Libs P T S) (db : Db)
    (hw : ∀ r ∈ db.slate, (decodeSlateRow L db r).isSome) :
    (db.slate = [] → loadSlate L db = .ok []) ∧
    ∃ l, loadSlate L db = .ok l ∧
      List.Forall₂ (fun r o => decodeSlateRow L db r = some o) db.slate l := by
  constructor
  · intro h
    have hj : slateJoin db = [] := by rw [slateJoin, h]; rfl
    rw [loadSlate, hj]
    rfl
  · exact loadSlate_scan L db db.slate hw

/-- Witness for C6 on a one-row slate whose blob is present. -/
theorem claim6_witness :
    (∀ r ∈ dbOneSlate.slate, (decodeSlateRow LW dbOneSlate r).isSome) ∧
    ∃ l, loadSlate LW dbOneSlate = .ok l ∧
      List.Forall₂ (fun r o => decodeSlateRow LW dbOneSlate r = some o)
        dbOneSlate.slate l := by
  have hw : ∀ r ∈ dbOneSlate.slate, (decodeSlateRow LW dbOneSlate r).isSome := by decide
  exact ⟨hw, (claim6_load_slate_order LW dbOneSlate hw).2⟩

/-- Both `clear_slate` and `erase_slate` write only the slate table. -/
theorem applySlateOp_frame (L : Libs P T S) (db : Db) (op : SlateOp T) :
    (applySlateOp L db op).voyage = db.voyage ∧
    (applySlateOp L db op).artifacts = db.artifacts ∧
    (applySlateOp L db op).logbook = db.logbook ∧
    (applySlateOp L db op).bearingObs = db.bearingObs := by
  cases op with
  | clear => exact ⟨rfl, rfl, rfl, rfl⟩
  | erase t => exact ⟨rfl, rfl, rfl, rfl⟩

/-- Any sequence of `clear_slate` and `erase_slate` operations writes only
the slate table. -/
theorem applySlateOps_frame (L : Libs P T S) (ops : List (SlateOp T)) :
    ∀ db : Db, (applySlateOps L db ops).voyage = db.voyage ∧
      (applySlateOps L db ops).artifacts = db.artifacts ∧
      (applySlateOps L db ops).logbook = db.logbook ∧
      (applySlateOps L db ops).bearingObs = db.bearingObs := by
  induction ops with
  | nil => exact fun _ => ⟨rfl, rfl, rfl, rfl⟩
  | cons op rest ih =>
    intro db
    have hstep := applySlateOp_frame L db op
    have htail := ih (applySlateOp L db op)
    exact ⟨htail.1.trans hstep.1, htail.2.1.trans hstep.2.1,
      htail.2.2.1.trans hstep.2.2.1, htail.2.2.2.trans hstep.2.2.2⟩

/-- Reading an artifact depends only on the artifacts table. -/
theorem loadArtifact_congr (L : Libs P T S) {db1 db2 : Db}
    (hab : db1.artifacts = db2.artifacts) (hash : String) :
    loadArtifact L db1 hash = loadArtifact L db2 hash := by
  unfold loadArtifact
  rw [hab]

/-- C7: an artifact referenced by a historical `bearing_observations` row
stays present and loadable across any subsequent sequence of `clear_slate`
and `erase_slate` operations — those delete only slate rows, never
artifact rows (nor bearing rows). -/
theorem claim7_artifact_immortality (L : Libs P T S) (db : Db)
    (ops : List (SlateOp T)) (hash : String) (p : P)
    (href : ∃ r ∈ db.bearingObs, r.hash = hash)
    (hload : loadArtifact L db hash = .ok p) :
    (applySlateOps L db ops).artifacts = db.artifacts ∧
    (applySlateOps L db ops).bearingObs = db.bearingObs ∧
    loadArtifact L (applySlateOps L db ops) hash = .ok p := by
  obtain ⟨hv, ha, hl, hb⟩ := applySlateOps_frame L ops db
  exact ⟨ha, hb, (loadArtifact_congr L ha hash).trans hload⟩

/-- Witness for C7: a clear followed by an erase on a database with a
sealed bearing leaves its artifact loadable. -/
theorem claim7_witness :
    (∃ r ∈ dbHist.bearingObs, r.hash = "h1") ∧
    loadArtifact LW dbHist "h1" = .ok [1] ∧
    loadArtifact LW (applySlateOps LW dbHist [SlateOp.clear, SlateOp.erase "t9"]) "h1" =
      .ok [1] := by
  have href : ∃ r ∈ dbHist.bearingObs, r.hash = "h1" :=
    ⟨⟨1, "t1", "h1", "ts0"⟩, by simp [dbHist], rfl⟩
  have hload : loadArtifact LW dbHist "h1" = .ok [1] := rfl
  exact ⟨href, hload,
    (claim7_artifact_immortality LW dbHist [SlateOp.clear, SlateOp.erase "t9"] "h1" [1]
      href hload).2.2⟩

/-- A directory entry's own name can always be looked up. -/
theorem lookupFile_isSome_of_mem :
    ∀ {root : Root} {entry : String × Db}, entry ∈ root →
      ∃ db0, lookupFile root entry.1 = some db0 := by
  intro root
  induction root with
  | nil => intro entry h; cases h
  | cons f rest ih =>
    intro entry h
    by_cases hf : f.1 = entry.1
    · exact ⟨f.2, by simp [lookupFile, hf]⟩
    · rcases List.mem_cons.mp h with rfl | hm
      · exact absurd rfl hf
      · obtain ⟨db0, hdb0⟩ := ih hm
        exact ⟨db0, by simp [lookupFile, hf, hdb0]⟩

/-- Every failure of reading the voyage row out of an open database is an
engine (`Db`) error — which the directory scan skips silently. -/
theorem loadVoyageRow_error_isDb {L : Libs P T S} {db : Db} {e : StorageErr}
    (h : loadVoyageRow L db = .error e) : ∃ m, e = .dbErr m := by
  unfold loadVoyageRow decodeVoyageRow at h
  split at h
  · cases h; exact ⟨_, rfl⟩
  · split at h
    · cases h; exact ⟨_, rfl⟩
    · split at h
      · cases h; exact ⟨_, rfl⟩
      · split at h
        · exact absurd h (by simp)
        · split at h
          · split at h
            · cases h; exact ⟨_, rfl⟩
            · exact absurd h (by simp)
          · cases h; exact ⟨_, rfl⟩

/-- The directory scan keeps exactly the loadable voyages, in directory
order, when file names are canonical renderings of their identifiers. -/
theorem listVoyagesScan_eq (L : Libs P T S) (root : Root)
    (hname : ∀ entry ∈ root, fileIsSqlite entry.1 = true →
      ∀ id, L.parseId (fileStem entry.1) = some id → voyageFileName L id = entry.1) :
    ∀ l : List (String × Db), (∀ x ∈ l, x ∈ root) →
      listVoyagesScan L root l = .ok (l.filterMap (keptVoyage L root)) := by
  intro l
  induction l with
  | nil => intro _; rfl
  | cons entry rest ih =>
    intro hsub
    have hrest := ih (fun x hx => hsub x (List.mem_cons_of_mem _ hx))
    by_cases hs : fileIsSqlite entry.1
    · cases hid : L.parseId (fileStem entry.1) with
      | none =>
        simp [listVoyagesScan, hs, hid, List.filterMap_cons, keptVoyage, hrest]
      | some id =>
        cases hlv : loadVoyage L root id with
        | ok v =>
          simp [listVoyagesScan, hs, hid, hlv, hrest, List.filterMap_cons, keptVoyage,
            Except.toOption]
        | error e =>
          have hmem : entry ∈ root := hsub entry (List.mem_cons_self _ _)
          have hfn : voyageFileName L id = entry.1 := hname entry hmem hs id hid
          obtain ⟨db0, hdb0⟩ := lookupFile_isSome_of_mem hmem
          have hrow : loadVoyage L root id = loadVoyageRow L db0 := by
            unfold loadVoyage
            rw [hfn, hdb0]
          obtain ⟨m, rfl⟩ := loadVoyageRow_error_isDb (hrow ▸ hlv)
          simp [listVoyagesScan, hs, hid, hlv, hrest, List.filterMap_cons, keptVoyage,
            Except.toOption]
    · simp [listVoyagesScan, hs, List.filterMap_cons, keptVoyage, hrest]

/-- C8: `list_voyages` returns exactly the voyages read from the root's
`*.sqlite` files whose stem parses as an identifier, sorted ascending by
`created_at`; files with unparseable stems contribute nothing, and a file
that opens but has no voyage row is skipped silently (its read error is an
engine error), not turned into a failure of the listing.  File names are
assumed canonical: a parsed stem renders back to the same name. -/
theorem claim8_list_voyages (L : Libs P T S) (root : Root)
    (hname : ∀ entry ∈ root, fileIsSqlite entry.1 = true →
      ∀ id, L.parseId (fileStem entry.1) = some id → voyageFileName L id = entry.1) :
    ∃ vs, listVoyages L root = .ok vs ∧
      vs.Perm (root.filterMap (keptVoyage L root)) ∧
      List.Sorted (fun a b => a.createdAt ≤ b.createdAt) vs := by
  have hscan := listVoyagesScan_eq L root hname root (fun x hx => hx)
  refine ⟨sortByCreatedAt (root.filterMap (keptVoyage L root)), ?_, ?_, ?_⟩
  · unfold listVoyages
    rw [hscan]
  · exact List.perm_insertionSort _ _
  · exact List.sorted_insertionSort _ _

/-- Witness for C8 on a root with a well-formed voyage file, a partially
written database and a non-sqlite file. -/
theorem claim8_witness :
    (∀ entry ∈ root7, fileIsSqlite entry.1 = true →
      ∀ id, LW.parseId (fileStem entry.1) = some id → voyageFileName LW id = entry.1) ∧
    ∃ vs, listVoyages LW root7 = .ok vs ∧
      vs.Perm (root7.filterMap (keptVoyage LW root7)) ∧
      List.Sorted (fun a b => a.createdAt ≤ b.createdAt) vs := by
  have hname : ∀ entry ∈ root7, fileIsSqlite entry.1 = true →
      ∀ id, LW.parseId (fileStem entry.1) = some id → voyageFileName LW id = entry.1 := by
    intro entry hentry
    simp only [root7, List.mem_cons, List.not_mem_nil, or_false] at hentry
    rcases hentry with rfl | rfl | rfl
    · intro _ id hid
      have h7 : LW.parseId (fileStem "id7.sqlite") = some 7 := by decide
      rw [h7] at hid
      obtain rfl : (7 : Nat) = id := Option.some.inj hid
      decide
    · intro _ id hid
      have hnone : LW.parseId (fileStem "idx.sqlite") = none := by decide
      rw [hnone] at hid
      exact Option.noConfusion hid
    · intro hsql
      exact absurd hsql (by decide)
  exact ⟨hname, claim8_list_voyages LW root7 hname⟩

/-- What a successful `update_voyage` writes: the matching voyage row's
status columns are rewritten; every other table is untouched. -/
theorem updateVoyage_ok {L : Libs P T S} {db : Db} {v : Voyage} {db2 : Db}
    (h : updateVoyage L db v = .ok db2) :
    db2.voyage = db.voyage.map (fun row =>
      if row.id == L.renderId v.id then
        { row with status := (encodeStatus L v.status).1,
                   endedAt := (encodeStatus L v.status).2.1,
                   endedStatus := (encodeStatus L v.status).2.2 }
      else row) ∧
    db2.artifacts = db.artifacts ∧ db2.slate = db.slate ∧
    db2.logbook = db.logbook ∧ db2.bearingObs = db.bearingObs := by
  simp only [updateVoyage] at h
  split at h
  · cases h
    exact ⟨rfl, rfl, rfl, rfl, rfl⟩
  · exact absurd h (by simp)

/-- C9: `Ended` is terminal.  Running `voyage end` on an already-ended
voyage returns a user-facing "already ended" error and leaves the stored
database untouched; no slate or seal operation touches the voyage row; and
whenever `voyage end` succeeds, the rewritten row's status column is
`"ended"` — the end command never writes `"active"` back. -/
theorem claim9_ended_terminal (L : Libs P T S) (db : Db) (v : Voyage)
    (status : Option String) (now : Int) (obs : Observation P T) (t : T)
    (fail : SealStep → Bool) (aj su idn ro me rat : String) :
    (∀ ea st, v.status = .ended ea st →
      cmdEnd L db v status now =
        (db, .error ("voyage " ++ (L.renderId v.id).take 8 ++ " is already ended"))) ∧
    (appendSlate L db obs).voyage = db.voyage ∧
    (clearSlate db).voyage = db.voyage ∧
    ((eraseSlate L db t).1).voyage = db.voyage ∧
    (sealOutcome (recordEntryTx fail db aj su idn ro me rat) db).voyage = db.voyage ∧
    (v.status = .active →
      ∀ db2, updateVoyage L db { v with status := VoyageStatus.ended now status } =
          .ok db2 →
        cmdEnd L db v status now = (db2, .ok ()) ∧
        ∀ row ∈ db2.voyage, row.id = L.renderId v.id → row.status = "ended") := by
  refine ⟨?_, rfl, rfl, rfl, ?_, ?_⟩
  · intro ea st hst
    unfold cmdEnd
    rw [hst]
  · cases hr : recordEntryTx fail db aj su idn ro me rat with
    | error e => simp [sealOutcome, hr]
    | ok d =>
      have hd := recordEntryTx_ok hr
      subst hd
      simp [sealOutcome, hr]
  · intro hv db2 hu
    constructor
    · unfold cmdEnd
      rw [hv, hu]
    · intro row hrow hid
      have hv2 := (updateVoyage_ok hu).1
      rw [hv2] at hrow
      obtain ⟨orig, horig, rfl⟩ := List.mem_map.mp hrow
      by_cases hmatch : orig.id == L.renderId v.id
      · rw [if_pos hmatch]
        rfl
      · rw [if_neg hmatch] at hid ⊢
        exact absurd (beq_iff_eq.mpr hid) hmatch

/-- Witness for C9: ending the already-ended voyage 7 errors and leaves
the database unchanged. -/
theorem claim9_witness :
    voyEnded.status = VoyageStatus.ended 1 none ∧
    cmdEnd LW emptyDb voyEnded none 5 =
      (emptyDb,
       .error ("voyage " ++ (LW.renderId voyEnded.id).take 8 ++ " is already ended")) := by
  exact ⟨rfl, (claim9_ended_terminal LW emptyDb voyEnded none 5 obsW "t"
    (fun _ => false) "a" "s" "i" "r" "m" "n").1 1 none rfl⟩

/-- C10: a stored logbook row whose `role` or `method` column is NULL does
not make `load_logbook` fail: the row decodes (given its timestamp, action
and bearing load succeed) to an entry carrying the empty string for the
missing column, so loaded entries always carry (possibly empty) `role` and
`method` strings. -/
theorem claim10_null_role_method (L : Libs P T S) (db : Db) (row : LogbookRow)
    (ts : Int) (k : EntryKind S) (os : List (Observation P T))
    (hts : L.parseTs row.recordedAt = some ts)
    (hk : L.decA row.action = some k)
    (hb : loadBearingObservations L db row.id = .ok os) :
    decodeLogbookRow L db row =
      .ok ⟨⟨os, row.summary⟩, row.identity, row.role.getD "", row.method.getD "",
        ts, k⟩ ∧
    (row.role = none →
      (row.role.getD "" : String) = "") ∧
    (row.method = none →
      (row.method.getD "" : String) = "") := by
  refine ⟨?_, ?_, ?_⟩
  · unfold decodeLogbookRow
    rw [hts, hk, hb]
  · intro h
    rw [h]
    rfl
  · intro h
    rw [h]
    rfl

/-- Witness for C10: a concrete row with NULL role and method decodes to
empty strings. -/
theorem claim10_witness :
    LW.parseTs rowNull.recordedAt = some 0 ∧
    LW.decA rowNull.action = some (.steer ()) ∧
    loadBearingObservations LW emptyDb rowNull.id = .ok [] ∧
    decodeLogbookRow LW emptyDb rowNull =
      .ok ⟨⟨[], rowNull.summary⟩, rowNull.identity, "", "", 0, .steer ()⟩ := by
  have h := claim10_null_role_method LW emptyDb rowNull 0 (.steer ()) [] rfl rfl rfl
  exact ⟨rfl, rfl, rfl, h.1⟩

end Helm
